import Mathlib

/-!
Verification of the crypto-dashboard collector / resolution pipeline.

Each definition below is a shallow embedding of a function of the
repository (TypeScript), with machine numbers represented as `Int` or `ℚ`
and JavaScript runtime values represented by explicit sum types.
Definitions keep the source names.  Theorems settle the frozen claims
about the spec.
-/

namespace CryptoDashboard

/-! ## Entity layer: status derivation (packages/shared utils)

Embedding of `determineProjectStatus` (and the flag records it reads).
Severities and importances are the string literals the source compares
against.  Health scores are JS numbers used only in order comparisons,
embedded as `Int`.
-/

/-- A risk flag as stored on a project (`RiskFlag` in shared types). -/
structure RiskFlag where
  type : String
  severity : String
  description : String
  detectedAt : String := ""
  source : Option String := none
  deriving Repr, DecidableEq

/-- An opportunity flag as stored on a project (`OpportunityFlag`). -/
structure OpportunityFlag where
  type : String
  importance : String
  description : String
  detectedAt : String := ""
  source : Option String := none
  deriving Repr, DecidableEq

/-- The four project statuses. -/
inductive ProjectStatus
  | normal
  | watch
  | warning
  | danger
  deriving Repr, DecidableEq

/-- Embedding of `determineProjectStatus` (shared utils): sequential
early-return `if` chain of the source. -/
def determineProjectStatus (healthScore : Int) (riskFlags : List RiskFlag)
    (opportunityFlags : List OpportunityFlag) : ProjectStatus :=
  if riskFlags.any (fun f => f.severity = "critical") then .danger
  else if riskFlags.any (fun f => f.severity = "high") || healthScore < 30 then .danger
  else if riskFlags.any (fun f => f.severity = "medium") || healthScore < 50 then .warning
  else if opportunityFlags.any (fun f => f.importance = "high") || healthScore ≥ 80 then .watch
  else .normal

/-! ## Scheduler: due-set computation

Embedding of `shouldCollect` (services/source-config) and the due-set
construction of `runConfigurableCollection` (scheduler).  Timestamps are
milliseconds since the epoch as `ℚ` (JS `Date.getTime()` arithmetic is
exact on these values); `intervalMinutes` and `priority` are JS numbers,
embedded as `ℚ` and `Int`.
-/

/-- The fields of `SourceConfig` that scheduling reads. -/
structure SourceConfig where
  id : String
  enabled : Bool
  lastCollectedAt : Option ℚ
  intervalMinutes : ℚ
  priority : Int
  deriving Repr, DecidableEq

/-- Embedding of `shouldCollect`: enabled, and never collected or the
minutes elapsed since `lastCollectedAt` reach `intervalMinutes`. -/
def shouldCollect (now : ℚ) (config : SourceConfig) : Bool :=
  if !config.enabled then false
  else
    match config.lastCollectedAt with
    | none => true
    | some lastCollected =>
      decide ((now - lastCollected) / (1000 * 60) ≥ config.intervalMinutes)

/-- Ordering of sources by the scheduler's comparator. -/
def priorityLE (a b : SourceConfig) : Prop := a.priority ≤ b.priority

instance : DecidableRel priorityLE := fun a b => inferInstanceAs (Decidable (a.priority ≤ b.priority))

instance : IsTotal SourceConfig priorityLE := ⟨fun a b => le_total a.priority b.priority⟩

instance : IsTrans SourceConfig priorityLE := ⟨fun _ _ _ h h' => le_trans h h'⟩

/-- The due set of `runConfigurableCollection`: enabled sources (the
DynamoDB `enabled-index` query), filtered by `shouldCollect`, sorted
ascending by `priority` (the `(a, b) => a.priority - b.priority`
comparator). -/
def dueSources (now : ℚ) (sources : List SourceConfig) : List SourceConfig :=
  ((sources.filter (·.enabled)).filter (shouldCollect now)).insertionSort priorityLE

/-! ## AI agent: operations, tool inputs, and the tool-use loop

Embedding of `toolCallToOperation`, `analyzeWithTools` and
`calculateImportanceScore` (packages/ai-agent).  The Bedrock model is an
oracle `respond : List Message → BedrockResponse`; the loop body follows
the source: collect the `tool_use` blocks of the response, stop if there
are none, convert every block except `report_analysis` into an
`EntityOperation`, record the `report_analysis` payload into the
analysis accumulator, append the assistant content and the synthetic
tool results to the conversation, and stop if `stop_reason` is
`end_turn`; at most 5 rounds.  The pair's second component counts the
model invocations actually performed (instrumentation only).

Tool inputs arrive as `Record<string, unknown>`; the fields the source
casts with `as` are embedded as typed fields, `Option` where the tool
schema marks them optional (or where different tools disagree).
-/

/-- One entry of `identifiedProjects` in a `report_analysis` call. -/
structure IdentifiedProject where
  entityId : Option String := none
  name : String := ""
  confidence : ℚ := 0
  deriving Repr, DecidableEq

/-- Payload of a `create` operation (`CreateEntityOperation.entity`). -/
structure CreateEntity where
  id : String := ""
  name : String := ""
  category : String := ""
  description : Option String := none
  logo : Option String := none
  website : Option String := none
  twitter : Option String := none
  deriving Repr, DecidableEq

/-- Payload of an `update` operation (`UpdateEntityOperation.updates`). -/
structure UpdateFields where
  healthScore : Option Int := none
  status : Option String := none
  newsSentiment : Option String := none
  deriving Repr, DecidableEq

/-- Payload of an `add_event` operation. -/
structure EventPayload where
  title : String := ""
  description : Option String := none
  date : String := ""
  source : Option String := none
  sourceUrl : Option String := none
  sentiment : Option String := none
  eventType : Option String := none
  deriving Repr, DecidableEq

/-- Payload of an `add_risk_flag` operation. -/
structure RiskFlagPayload where
  type : String := ""
  severity : String := ""
  description : Option String := none
  source : Option String := none
  deriving Repr, DecidableEq

/-- Payload of an `add_opportunity_flag` operation. -/
structure OppFlagPayload where
  type : String := ""
  importance : String := ""
  description : Option String := none
  source : Option String := none
  deriving Repr, DecidableEq

/-- The transient `EntityOperation` tagged union of the shared types. -/
inductive EntityOperation
  | create (entity : CreateEntity)
  | update (entityId : String) (updates : UpdateFields) (reason : String)
  | add_event (entityId : String) (event : EventPayload)
  | add_risk_flag (entityId : String) (flag : RiskFlagPayload)
  | add_opportunity_flag (entityId : String) (flag : OppFlagPayload)
  deriving Repr, DecidableEq

/-- The fields the agent reads out of a tool call's `input` record. -/
structure ToolInput where
  id : String := ""
  name : String := ""
  category : String := ""
  description : Option String := none
  logo : Option String := none
  website : Option String := none
  twitter : Option String := none
  entityId : String := ""
  healthScore : Option Int := none
  status : Option String := none
  newsSentiment : Option String := none
  reason : String := ""
  title : String := ""
  date : String := ""
  source : Option String := none
  sourceUrl : Option String := none
  sentiment : Option String := none
  eventType : Option String := none
  flagType : String := ""
  severity : String := ""
  importance : String := ""
  identifiedProjects : Option (List IdentifiedProject) := none
  keyInsights : Option (List String) := none
  reasoning : Option String := none
  deriving Repr, DecidableEq

/-- Embedding of `toolCallToOperation` (ai-agent index): the five
operation tools become operations, anything else (including
`report_analysis`, which the loop intercepts first) yields `null`. -/
def toolCallToOperation (toolName : String) (input : ToolInput) : Option EntityOperation :=
  match toolName with
  | "create_project" =>
    some (.create
      { id := input.id, name := input.name, category := input.category,
        description := input.description, logo := input.logo,
        website := input.website, twitter := input.twitter })
  | "update_project" =>
    some (.update input.entityId
      { healthScore := input.healthScore, status := input.status,
        newsSentiment := input.newsSentiment } input.reason)
  | "add_event" =>
    some (.add_event input.entityId
      { title := input.title, description := input.description, date := input.date,
        source := input.source, sourceUrl := input.sourceUrl,
        sentiment := input.sentiment, eventType := input.eventType })
  | "add_risk_flag" =>
    some (.add_risk_flag input.entityId
      { type := input.flagType, severity := input.severity,
        description := input.description, source := input.source })
  | "add_opportunity_flag" =>
    some (.add_opportunity_flag input.entityId
      { type := input.flagType, importance := input.importance,
        description := input.description, source := input.source })
  | _ => none

/-- A `tool_use` content block of a Bedrock response. -/
structure ToolUseBlock where
  id : String
  name : String
  input : ToolInput
  deriving Repr, DecidableEq

/-- A content block: free text or a tool invocation. -/
inductive ContentBlock
  | text (s : String)
  | toolUse (block : ToolUseBlock)
  deriving Repr, DecidableEq

/-- A Bedrock response: ordered content blocks plus a stop reason. -/
structure BedrockResponse where
  content : List ContentBlock
  stop_reason : String
  deriving Repr, DecidableEq

/-- A synthetic tool acknowledgment fed back to the model. -/
structure ToolResult where
  tool_use_id : String
  success : Bool
  deriving Repr, DecidableEq

/-- Conversation message content. -/
inductive MessageContent
  | prompt (text : String)
  | assistant (content : List ContentBlock)
  | toolResults (results : List ToolResult)
  deriving Repr, DecidableEq

/-- A conversation message. -/
structure Message where
  role : String
  content : MessageContent
  deriving Repr, DecidableEq

/-- The `tool_use` blocks of a response, in content order. -/
def toolUseBlocksOf (response : BedrockResponse) : List ToolUseBlock :=
  response.content.filterMap fun b =>
    match b with
    | .toolUse t => some t
    | .text _ => none

/-- The analysis accumulator of the loop. -/
structure Analysis where
  sentiment : Option String := none
  eventType : Option String := none
  identifiedProjects : Option (List IdentifiedProject) := none
  keyInsights : Option (List String) := none
  deriving Repr, DecidableEq

/-- The value `analyzeWithTools` returns. -/
structure AIAgentOutput where
  operations : List EntityOperation
  analysis : Analysis
  reasoning : String
  deriving Repr, DecidableEq

/-- The per-round accumulator: operations, analysis, reasoning, and the
tool results built for the follow-up message. -/
structure LoopAcc where
  operations : List EntityOperation
  analysis : Analysis
  reasoning : String
  results : List ToolResult
  deriving Repr, DecidableEq

/-- Processing of one tool call inside the loop body:
`report_analysis` overwrites the analysis and reasoning; any other name
goes through `toolCallToOperation` and, when convertible, is queued. -/
def processToolCall (acc : LoopAcc) (t : ToolUseBlock) : LoopAcc :=
  if t.name = "report_analysis" then
    { acc with
      analysis :=
        { sentiment := t.input.sentiment, eventType := t.input.eventType,
          identifiedProjects := t.input.identifiedProjects,
          keyInsights := t.input.keyInsights },
      reasoning := t.input.reasoning.getD "",
      results := acc.results ++ [⟨t.id, true⟩] }
  else
    match toolCallToOperation t.name t.input with
    | some op =>
      { acc with
        operations := acc.operations ++ [op],
        results := acc.results ++ [⟨t.id, true⟩] }
    | none => { acc with results := acc.results ++ [⟨t.id, false⟩] }

/-- Processing of all tool calls of one round, starting from the carried
accumulators with an empty tool-result list. -/
def processRound (blocks : List ToolUseBlock) (ops : List EntityOperation)
    (analysis : Analysis) (reasoning : String) : LoopAcc :=
  blocks.foldl processToolCall ⟨ops, analysis, reasoning, []⟩

/-- The `for (let i = 0; i < 5; i++)` resolution loop of
`analyzeWithTools`, with the remaining iterations as fuel and the
invocation count threaded through. -/
def toolLoop (respond : List Message → BedrockResponse) :
    Nat → List Message → List EntityOperation → Analysis → String → Nat →
      AIAgentOutput × Nat
  | 0, _, ops, analysis, reasoning, rounds => (⟨ops, analysis, reasoning⟩, rounds)
  | fuel + 1, messages, ops, analysis, reasoning, rounds =>
    let response := respond messages
    let blocks := toolUseBlocksOf response
    if blocks.isEmpty then (⟨ops, analysis, reasoning⟩, rounds + 1)
    else
      let acc := processRound blocks ops analysis reasoning
      let nextMessages := messages ++
        [⟨"assistant", .assistant response.content⟩, ⟨"user", .toolResults acc.results⟩]
      if response.stop_reason = "end_turn" then
        (⟨acc.operations, acc.analysis, acc.reasoning⟩, rounds + 1)
      else
        toolLoop respond fuel nextMessages acc.operations acc.analysis acc.reasoning
          (rounds + 1)

/-- The initial conversation: the single user prompt. -/
def initialMessages (userPrompt : String) : List Message :=
  [⟨"user", .prompt userPrompt⟩]

/-- Embedding of `analyzeWithTools`: empty accumulators, 5 rounds of
fuel.  Second component: number of model invocations performed. -/
def analyzeWithTools (respond : List Message → BedrockResponse)
    (userPrompt : String) : AIAgentOutput × Nat :=
  toolLoop respond 5 (initialMessages userPrompt) [] {} "" 0

/-! ## Importance score (ai-agent dynamodb service) -/

/-- Recogniser for `add_risk_flag` operations. -/
def isAddRiskFlagOp : EntityOperation → Bool
  | .add_risk_flag _ _ => true
  | _ => false

/-- Recogniser for `add_opportunity_flag` operations. -/
def isAddOppFlagOp : EntityOperation → Bool
  | .add_opportunity_flag _ _ => true
  | _ => false

/-- Embedding of `calculateImportanceScore`: the source's sequential
additions in source order, then the clamp `min(max(score, 0), 100)`. -/
def calculateImportanceScore (output : AIAgentOutput) : Int :=
  let score : Int := 50
  let score := score + (if output.analysis.eventType = some "security" then 30 else 0)
  let score := score + (if output.analysis.eventType = some "funding" then 20 else 0)
  let score := score + (if output.analysis.eventType = some "regulatory" then 25 else 0)
  let score := score + (if output.analysis.eventType = some "legal" then 20 else 0)
  let score := score + (if output.analysis.sentiment = some "negative" then 15 else 0)
  let score := score + (if output.analysis.sentiment = some "positive" then 5 else 0)
  let projectCount : Int := ((output.analysis.identifiedProjects.getD []).length : Int)
  let score := score + min (projectCount * 5) 15
  let riskOps : Int := ((output.operations.filter isAddRiskFlagOp).length : Int)
  let oppOps : Int := ((output.operations.filter isAddOppFlagOp).length : Int)
  let score := score + (riskOps + oppOps) * 5
  min (max score 0) 100

/-- The spec's event-type summand: +30 security, +25 regulatory,
+20 funding, +20 legal. -/
def eventTypeBonus (et : Option String) : Int :=
  if et = some "security" then 30
  else if et = some "regulatory" then 25
  else if et = some "funding" then 20
  else if et = some "legal" then 20
  else 0

/-- The spec's sentiment summand: +15 negative, +5 positive. -/
def sentimentBonus (s : Option String) : Int :=
  if s = some "negative" then 15
  else if s = some "positive" then 5
  else 0

/-- The importance rule exactly as the spec words it: base 50, plus the
event-type bonus, plus the sentiment bonus, plus 5 per identified
project capped at 15, plus 5 per risk-or-opportunity operation, clamped
to `[0, 100]`. -/
def importanceScoreSpec (output : AIAgentOutput) : Int :=
  let projectCount : Int := ((output.analysis.identifiedProjects.getD []).length : Int)
  let riskOps : Int := ((output.operations.filter isAddRiskFlagOp).length : Int)
  let oppOps : Int := ((output.operations.filter isAddOppFlagOp).length : Int)
  min (max (50 + eventTypeBonus output.analysis.eventType
    + sentimentBonus output.analysis.sentiment
    + min (projectCount * 5) 15 + (riskOps + oppOps) * 5) 0) 100

/-! ## Ingestion: dedup and idempotent persistence (collector scheduler)

The DynamoDB tables are embedded as association lists keyed by `id`
(`PutCommand` overwrites by key, `GetCommand` reads by key); the SQS
queue is the list of messages sent.  The `Promise.all` batches of 10 in
`processCollectorResult` are sequentialised (each item's get/put/send
ladder is atomic here).
-/

/-- The part of a stored `ProjectInfo` record that dedup reads — its
identity and content hash — with the rest of the payload collapsed into
an opaque field. -/
structure ProjectInfoRec where
  id : String
  dataHash : String
  payload : String := ""
  deriving Repr, DecidableEq

/-- `GetCommand`: lookup by key. -/
def dbGet {α : Type} (table : List (String × α)) (k : String) : Option α :=
  (table.find? (fun p => p.1 == k)).map (·.2)

/-- `PutCommand`: overwrite by key. -/
def dbPut {α : Type} (table : List (String × α)) (k : String) (v : α) :
    List (String × α) :=
  (k, v) :: table.filter (fun p => p.1 != k)

/-- Embedding of `isDuplicateProjectInfo`: read the stored record by id
and compare `dataHash`; an absent record is not a duplicate. -/
def isDuplicateProjectInfo (table : List (String × ProjectInfoRec))
    (info : ProjectInfoRec) : Bool :=
  match dbGet table info.id with
  | none => false
  | some stored => stored.dataHash == info.dataHash

/-- Embedding of `saveProjectInfo`: a duplicate is skipped (returns
`false`, table unchanged), otherwise the item is put and `true` is
returned. -/
def saveProjectInfo (table : List (String × ProjectInfoRec))
    (info : ProjectInfoRec) : Bool × List (String × ProjectInfoRec) :=
  if isDuplicateProjectInfo table info then (false, table)
  else (true, dbPut table info.id info)

/-- A queue message `{type, infoId}` sent to the resolution queue. -/
structure SQSMessage where
  type : String
  infoId : String
  deriving Repr, DecidableEq

/-- The persistent state ingestion touches: the info table and the
queue. -/
structure IngestState where
  table : List (String × ProjectInfoRec)
  queue : List SQSMessage
  deriving Repr, DecidableEq

/-- The per-item body of `processCollectorResult` for a `project_info`
source: save, and enqueue `{project_info, info.id}` exactly when the
save happened. -/
def processProjectItem (st : IngestState) (info : ProjectInfoRec) :
    IngestState × Bool :=
  let result := saveProjectInfo st.table info
  if result.1 then
    ({ table := result.2, queue := st.queue ++ [⟨"project_info", info.id⟩] }, true)
  else
    ({ st with table := result.2 }, false)

/-- `processCollectorResult` for a `project_info` source, items in
order, returning the new state and the `{saved, skipped}` counts. -/
def processCollectorResult (st : IngestState) (items : List ProjectInfoRec) :
    IngestState × Nat × Nat :=
  items.foldl
    (fun acc item =>
      let step := processProjectItem acc.1 item
      if step.2 then (step.1, acc.2.1 + 1, acc.2.2)
      else (step.1, acc.2.1, acc.2.2 + 1))
    (st, 0, 0)

/-! ## REST collector result policy (RestApiCollector.collect)

Each endpoint fetch either returns items or throws; the inner
`try/catch` logs and skips a throwing endpoint.  The outcome of one
endpoint is an `Except`; the whole `collect` body is itself wrapped in
an outer `try/catch` that turns an exception raised outside the
per-endpoint loop into `failedResult`.
-/

/-- The `{totalFetched, savedCount, skippedCount}` stats of a
`CollectorResult`. -/
structure CollectorStats where
  totalFetched : Nat
  savedCount : Nat
  skippedCount : Nat
  deriving Repr, DecidableEq

/-- `CollectorResult`, generic over the item type. -/
structure CollectorResult (α : Type) where
  success : Bool
  items : List α
  error : Option String := none
  stats : CollectorStats
  deriving Repr, DecidableEq

/-- `BaseCollector.successResult`. -/
def successResult {α : Type} (items : List α) (stats : CollectorStats) :
    CollectorResult α :=
  { success := true, items := items, stats := stats }

/-- `BaseCollector.failedResult`. -/
def failedResult {α : Type} (error : String) : CollectorResult α :=
  { success := false, items := [], error := some error,
    stats := { totalFetched := 0, savedCount := 0, skippedCount := 0 } }

/-- One step of the per-endpoint loop: `allItems.push(...items)` on a
successful fetch, skip on a caught per-endpoint exception. -/
def concatFetched {α : Type} (acc : List α) (r : Except String (List α)) :
    List α :=
  match r with
  | .ok items => acc ++ items
  | .error _ => acc

/-- The per-endpoint loop of `RestApiCollector.collect`: failed fetches
are skipped, the collected items of the successful ones are concatenated
in endpoint order, and the result is always `successResult`. -/
def restCollect {α : Type} (fetchOutcomes : List (Except String (List α))) :
    CollectorResult α :=
  let allItems := fetchOutcomes.foldl concatFetched []
  successResult allItems
    { totalFetched := allItems.length, savedCount := allItems.length,
      skippedCount := 0 }

/-- `RestApiCollector.collect` including its outer `try/catch`: an
exception outside the per-endpoint loop becomes `failedResult`. -/
def restCollectTop {α : Type}
    (run : Except String (List (Except String (List α)))) : CollectorResult α :=
  match run with
  | .ok fetchOutcomes => restCollect fetchOutcomes
  | .error e => failedResult e

/-- The cumulative `CollectionStats` of a source config. -/
structure CollectionStats where
  totalCollected : Nat
  successCount : Nat
  failedCount : Nat
  lastItemCount : Nat
  deriving Repr, DecidableEq

/-- The stats arithmetic of `updateSourceCollectionStatus`. -/
def updateStats (stats : CollectionStats) (statusSuccess : Bool)
    (itemCount : Nat) : CollectionStats :=
  { totalCollected := stats.totalCollected + itemCount,
    successCount := stats.successCount + (if statusSuccess then 1 else 0),
    failedCount := stats.failedCount + (if statusSuccess then 0 else 1),
    lastItemCount := itemCount }

/-- `collectFromSource`'s status bookkeeping: a successful
`CollectorResult` records `success` with the saved count, a failed one
records `failed` (with `itemCount || 0 = 0`). -/
def collectFromSourceStatus {α : Type} (result : CollectorResult α)
    (savedCount : Nat) (stats : CollectionStats) : CollectionStats :=
  if result.success then updateStats stats true savedCount
  else updateStats stats false 0

/-! ## Entity mutation engine (ai-agent dynamodb service)

`executeOperation` works against the projects table (an association list
keyed by id).  `updateProject` is a DynamoDB `UpdateCommand` setting
exactly the supplied (non-`undefined`) attributes plus `lastUpdated`; on
the engine's paths it is only reached after a successful `getProject`,
so it is embedded as a merge into the fetched project followed by an
overwrite.  The synthetic event id (`evt-` + timestamp + random suffix)
is passed in as `freshEventId`; the opaque `attributes` bag of a created
project is not modelled (no operation or claim reads it).
-/

/-- An event as stored in `recentEvents`: the synthetic id spread
together with the operation's event payload. -/
structure StoredEvent where
  id : String
  event : EventPayload
  deriving Repr, DecidableEq

/-- A risk flag as stored by `addRiskFlag`: the operation's payload
spread together with `detectedAt`. -/
structure StoredRiskFlag where
  flag : RiskFlagPayload
  detectedAt : String
  deriving Repr, DecidableEq

/-- An opportunity flag as stored by `addOpportunityFlag`. -/
structure StoredOppFlag where
  flag : OppFlagPayload
  detectedAt : String
  deriving Repr, DecidableEq

/-- A project entity record as the engine stores it. -/
structure Project where
  id : String
  name : String := ""
  category : String := ""
  description : Option String := none
  logo : Option String := none
  website : Option String := none
  twitter : Option String := none
  status : String := "normal"
  healthScore : Int := 70
  newsSentiment : String := "neutral"
  recentEvents : List StoredEvent := []
  riskFlags : List StoredRiskFlag := []
  opportunityFlags : List StoredOppFlag := []
  lastUpdated : String := ""
  deriving Repr, DecidableEq

/-- The partial update an `UpdateCommand` carries: only `some` fields
are written (`undefined` entries are skipped by the source loop). -/
structure ProjectPartial where
  description : Option String := none
  logo : Option String := none
  website : Option String := none
  twitter : Option String := none
  healthScore : Option Int := none
  status : Option String := none
  newsSentiment : Option String := none
  recentEvents : Option (List StoredEvent) := none
  riskFlags : Option (List StoredRiskFlag) := none
  opportunityFlags : Option (List StoredOppFlag) := none
  deriving Repr, DecidableEq

/-- `updateProject` merge semantics on a fetched project: supplied
fields overwrite, absent fields persist, `lastUpdated` always
refreshes. -/
def applyUpdate (p : Project) (u : ProjectPartial) (now : String) : Project :=
  { p with
    description := u.description <|> p.description,
    logo := u.logo <|> p.logo,
    website := u.website <|> p.website,
    twitter := u.twitter <|> p.twitter,
    healthScore := u.healthScore.getD p.healthScore,
    status := u.status.getD p.status,
    newsSentiment := u.newsSentiment.getD p.newsSentiment,
    recentEvents := u.recentEvents.getD p.recentEvents,
    riskFlags := u.riskFlags.getD p.riskFlags,
    opportunityFlags := u.opportunityFlags.getD p.opportunityFlags,
    lastUpdated := now }

/-- Embedding of `executeOperation`: returns the new projects table and
the entity id the source returns (`undefined` as `none`). -/
def executeOperation (store : List (String × Project)) (now freshEventId : String)
    (op : EntityOperation) : List (String × Project) × Option String :=
  match op with
  | .create entity =>
    match dbGet store entity.id with
    | some existing =>
      (dbPut store entity.id (applyUpdate existing
        { description := entity.description, logo := entity.logo,
          website := entity.website, twitter := entity.twitter } now),
        some entity.id)
    | none =>
      (dbPut store entity.id
        { id := entity.id, name := entity.name, category := entity.category,
          description := entity.description, logo := entity.logo,
          website := entity.website, twitter := entity.twitter,
          status := "normal", healthScore := 70, newsSentiment := "neutral",
          recentEvents := [], riskFlags := [], opportunityFlags := [],
          lastUpdated := now },
        some entity.id)
  | .update entityId updates _reason =>
    match dbGet store entityId with
    | none => (store, none)
    | some existing =>
      (dbPut store entityId (applyUpdate existing
        { healthScore := updates.healthScore, status := updates.status,
          newsSentiment := updates.newsSentiment } now),
        some entityId)
  | .add_event entityId event =>
    match dbGet store entityId with
    | none => (store, some entityId)
    | some existing =>
      let recentEvents := (⟨freshEventId, event⟩ :: existing.recentEvents).take 20
      (dbPut store entityId
        (applyUpdate existing { recentEvents := some recentEvents } now),
        some entityId)
  | .add_risk_flag entityId flag =>
    match dbGet store entityId with
    | none => (store, some entityId)
    | some existing =>
      if existing.riskFlags.any
          (fun f => f.flag.type == flag.type && f.flag.description == flag.description) then
        (store, some entityId)
      else
        (dbPut store entityId
          (applyUpdate existing
            { riskFlags := some (⟨flag, now⟩ :: existing.riskFlags) } now),
          some entityId)
  | .add_opportunity_flag entityId flag =>
    match dbGet store entityId with
    | none => (store, some entityId)
    | some existing =>
      if existing.opportunityFlags.any
          (fun f => f.flag.type == flag.type && f.flag.description == flag.description) then
        (store, some entityId)
      else
        (dbPut store entityId
          (applyUpdate existing
            { opportunityFlags := some (⟨flag, now⟩ :: existing.opportunityFlags) } now),
          some entityId)

/-- The `for (const operation of output.operations)` execution loop. -/
def executeOperations (store : List (String × Project)) (now freshEventId : String)
    (ops : List EntityOperation) : List (String × Project) :=
  ops.foldl (fun s op => (executeOperation s now freshEventId op).1) store

/-- Every stored project's health score lies in `[0, 100]`. -/
def storeHealthInRange (store : List (String × Project)) : Prop :=
  ∀ entry ∈ store, 0 ≤ entry.2.healthScore ∧ entry.2.healthScore ≤ 100

instance : DecidablePred storeHealthInRange := fun store =>
  inferInstanceAs
    (Decidable (∀ entry ∈ store, 0 ≤ entry.2.healthScore ∧ entry.2.healthScore ≤ 100))

/-- An operation's health-score payload, when present, lies in
`[0, 100]` (the bound the `update_project` tool schema declares but the
engine does not enforce). -/
def opHealthScoreOK : EntityOperation → Prop
  | .update _ updates _ => ∀ h, updates.healthScore = some h → 0 ≤ h ∧ h ≤ 100
  | _ => True

/-! ## JavaScript runtime values and coercions

The field-mapping engine and the REST normalisation manipulate untyped
JSON data.  `JsonValue` is a JS runtime value; `undefined` is
represented by `Option.none` one level up.  The JS coercions the source
relies on (`String(...)`, `Number(...)`, `Date` parsing, truthiness)
are host behaviour, modelled here with their digit-exact formatting
simplified (no claim inspects formatted digits): `numToString` renders a
rational as `Rat` does, `jsToNumber` parses only integer strings and
maps non-empty arrays and objects to NaN, and `parseJsDate` accepts
exactly ISO-8601-shaped strings (`YYYY-MM-DD`, optionally extended) —
keeping the one property the claims use, that some strings fail to
parse and make `toISOString()` throw a RangeError.
-/

/-- A JS runtime value (`nanv` is the number `NaN`). -/
inductive JsonValue
  | str (s : String)
  | num (q : ℚ)
  | nanv
  | bool (b : Bool)
  | null
  | arr (items : List JsonValue)
  | obj (fields : List (String × JsonValue))

/-- Simplified number formatting for `String(number)`. -/
def numToString (q : ℚ) : String :=
  if q.den = 1 then toString q.num else toString q.num ++ "/" ++ toString q.den

mutual

/-- JS `String(...)` coercion. -/
def jsToString : JsonValue → String
  | .str s => s
  | .num q => numToString q
  | .nanv => "NaN"
  | .bool b => if b then "true" else "false"
  | .null => "null"
  | .arr items => jsToStringJoin items
  | .obj _ => "[object Object]"

/-- `Array.prototype.toString`: elements joined by commas. -/
def jsToStringJoin : List JsonValue → String
  | [] => ""
  | [v] => jsToString v
  | v :: rest => jsToString v ++ "," ++ jsToStringJoin rest

end

mutual

/-- `JSON.stringify` (string escaping not modelled). -/
def jsonStringify : JsonValue → String
  | .str s => "\"" ++ s ++ "\""
  | .num q => numToString q
  | .nanv => "null"
  | .bool b => if b then "true" else "false"
  | .null => "null"
  | .arr items => "[" ++ jsonStringifyJoin items ++ "]"
  | .obj fields => "\x7b" ++ jsonStringifyFields fields ++ "\x7d"

def jsonStringifyJoin : List JsonValue → String
  | [] => ""
  | [v] => jsonStringify v
  | v :: rest => jsonStringify v ++ "," ++ jsonStringifyJoin rest

def jsonStringifyFields : List (String × JsonValue) → String
  | [] => ""
  | [kv] => "\"" ++ kv.1 ++ "\":" ++ jsonStringify kv.2
  | kv :: rest =>
    "\"" ++ kv.1 ++ "\":" ++ jsonStringify kv.2 ++ "," ++ jsonStringifyFields rest

end

/-- JS truthiness: `undefined`, `null`, `false`, `0`, `NaN` and `""`
are falsy. -/
def truthy : JsonValue → Bool
  | .str s => !(s == "")
  | .num q => !(q == 0)
  | .nanv => false
  | .bool b => b
  | .null => false
  | .arr _ => true
  | .obj _ => true

/-- Decimal digit-string parsing (the fragment of JS number parsing the
model keeps). -/
def parseDigits : List Char → Option Nat
  | [] => none
  | cs =>
    if cs.all Char.isDigit then
      some (cs.foldl (fun n c => n * 10 + (c.toNat - 48)) 0)
    else none

/-- Integer-string parsing with an optional leading minus sign. -/
def parseIntString (s : String) : Option Int :=
  match s.toList with
  | '-' :: rest => (parseDigits rest).map (fun n => -(n : Int))
  | cs => (parseDigits cs).map (fun n => (n : Int))

/-- JS `Number(...)` coercion, `none` = NaN.  Simplified: only integer
strings parse; non-empty arrays and objects are NaN. -/
def jsToNumber : JsonValue → Option ℚ
  | .str s => if s = "" then some 0 else (parseIntString s).map (fun n => (n : ℚ))
  | .num q => some q
  | .nanv => none
  | .bool b => some (if b then 1 else 0)
  | .null => some 0
  | .arr [] => some 0
  | .arr (_ :: _) => none
  | .obj _ => none

/-- Modelled JS runtime: `new Date(s).toISOString()`.  ISO-8601-shaped
input normalises; anything else is an Invalid Date (`none`), whose
`toISOString()` throws. -/
def parseJsDate (s : String) : Option String :=
  let cs := s.toList
  if cs.length ≥ 10 && (cs.take 4).all Char.isDigit && cs[4]? == some '-'
      && ((cs.drop 5).take 2).all Char.isDigit && cs[7]? == some '-'
      && ((cs.drop 8).take 2).all Char.isDigit then
    if cs.length == 10 then some (s ++ "T00:00:00.000Z") else some s
  else none

/-! ## Content hash (shared `generateContentHash`) -/

/-- The UTF-16 code units JS's `charCodeAt` iterates over. -/
def utf16Units (s : String) : List Nat :=
  s.toList.flatMap fun c =>
    let n := c.toNat
    if n < 65536 then [n]
    else [55296 + (n - 65536) / 1024, 56320 + (n - 65536) % 1024]

/-- JS `ToInt32` (the effect of `x & x` and of `<<`). -/
def toInt32 (n : Int) : Int :=
  let m := n % 4294967296
  if m ≥ 2147483648 then m - 4294967296 else m

/-- One base-36 digit as `Number.prototype.toString(36)` renders it. -/
def natToBase36Digit (n : Nat) : Char :=
  if n < 10 then Char.ofNat (48 + n) else Char.ofNat (87 + n)

/-- Base-36 digits, most significant first (fuel = the number itself,
ample since the argument shrinks by /36 each step). -/
def natToBase36Core : Nat → Nat → List Char → List Char
  | 0, _, acc => acc
  | fuel + 1, n, acc =>
    if n = 0 then acc
    else natToBase36Core fuel (n / 36) (natToBase36Digit (n % 36) :: acc)

/-- `Math.abs(hash).toString(36)`'s rendering. -/
def natToBase36 (n : Nat) : String :=
  if n = 0 then "0" else String.mk (natToBase36Core (n + 1) n [])

/-- Embedding of `generateContentHash`: the 32-bit accumulation
`hash = ((hash << 5) - hash + charCode) & -1` over the UTF-16 units,
rendered via `Math.abs(...).toString(36)`. -/
def generateContentHash (content : String) : String :=
  let hash := (utf16Units content).foldl
    (fun hash char => toInt32 (toInt32 (hash * 32) - hash + (char : Int))) 0
  natToBase36 hash.natAbs

/-- Embedding of `generateProjectInfoId`. -/
def generateProjectInfoId (source sourceId : String) : String :=
  source ++ ":" ++ sourceId

/-! ## Field-mapping engine (RestApiCollector.applyMapping) -/

/-- The closed transform enum of a mapping rule. -/
inductive Transform
  | string
  | number
  | date
  | array
  | lowercase
  | uppercase
  deriving Repr, DecidableEq

/-- Embedding of `transformValue`.  Every arm is total except `date`,
which throws `Invalid time value` (a RangeError from `toISOString`)
when the stringified value is not a parsable date. -/
def transformValue (value : JsonValue) : Transform → Except String JsonValue
  | .string => .ok (.str (jsToString value))
  | .number =>
    match jsToNumber value with
    | some q => .ok (.num q)
    | none => .ok .nanv
  | .date =>
    match parseJsDate (jsToString value) with
    | some iso => .ok (.str iso)
    | none => .error "Invalid time value"
  | .array =>
    match value with
    | .arr items => .ok (.arr items)
    | v => .ok (.arr [v])
  | .lowercase => .ok (.str (String.mk ((jsToString value).toList.map Char.toLower)))
  | .uppercase => .ok (.str (String.mk ((jsToString value).toList.map Char.toUpper)))

/-- The loop of `getNestedValue`: `undefined`/`null` current yields
`undefined`; objects (and arrays — `typeof` is `object`) are indexed,
anything else yields `undefined`. -/
def getNested : Option JsonValue → List String → Option JsonValue
  | current, [] => current
  | none, _ :: _ => none
  | some v, part :: rest =>
    match v with
    | .obj fields => getNested (dbGet fields part) rest
    | .arr items => getNested (part.toNat?.bind fun i => items[i]?) rest
    | _ => none

/-- JS `String.prototype.split` with a single-character separator. -/
def splitString (s : String) (sep : Char) : List String :=
  (s.toList.splitOn sep).map String.mk

/-- Embedding of `getNestedValue`: dot-separated path lookup. -/
def getNestedValue (record : JsonValue) (path : String) : Option JsonValue :=
  getNested (some record) (splitString path '.')

/-- One mapping rule: a bare source path, or
`{source, default?, transform?}`. -/
inductive MappingRule
  | simple (path : String)
  | complex (src : String) (dflt : Option JsonValue) (transform : Option Transform)

/-- One rule of `applyMapping`'s loop body: missing value replaced by
the default when present; the transform applied only when a value is
present afterwards. -/
def applyRule (data : JsonValue) : MappingRule → Except String (Option JsonValue)
  | .simple path => .ok (getNestedValue data path)
  | .complex src dflt tr =>
    let value := getNestedValue data src
    let value :=
      match value, dflt with
      | none, some d => some d
      | v, _ => v
    match value, tr with
    | some v, some t => (transformValue v t).map some
    | v, _ => .ok v

/-- Embedding of `applyMapping` over the mapping's entries in order; a
throwing transform aborts with the exception. -/
def applyMapping (data : JsonValue) :
    List (String × MappingRule) → Except String (List (String × Option JsonValue))
  | [] => .ok []
  | entry :: rest => do
    let v ← applyRule data entry.2
    let restResult ← applyMapping data rest
    .ok ((entry.1, v) :: restResult)

/-! ## REST and RSS normalisation (identity derivation) -/

/-- Property access on the mapped-attributes object (a present key whose
value is `undefined` behaves as absent). -/
def mget (mapped : List (String × Option JsonValue)) (key : String) :
    Option JsonValue :=
  (dbGet mapped key).bind id

/-- JS `a || b` on possibly-`undefined` operands. -/
def jsOr (a b : Option JsonValue) : Option JsonValue :=
  match a with
  | some v => if truthy v then some v else b
  | none => b

/-- JS `a || b` where `b` is a present value. -/
def jsOrV (a : Option JsonValue) (b : JsonValue) : JsonValue :=
  match a with
  | some v => if truthy v then v else b
  | none => b

/-- The `toStringOrUndefined` helper of `fetchEndpoint`. -/
def toStringOrUndefined (v : Option JsonValue) : Option String :=
  match v with
  | none => none
  | some .null => none
  | some v => some (jsToString v)

/-- The normalised `ProjectInfo` a REST endpoint produces. -/
structure RestProjectInfo where
  id : String
  source : String
  sourceId : String
  rawData : JsonValue
  name : String
  logo : Option String := none
  website : Option String := none
  description : Option String := none
  sourceCategory : Option String := none
  twitter : Option String := none
  tokenSymbol : Option String := none
  collectedAt : String
  processedStatus : String := "pending"
  dataHash : String

/-- The normalised `MarketInfo` a REST endpoint produces. -/
structure RestMarketInfo where
  id : String
  source : String
  rawData : JsonValue
  title : String
  content : String
  url : Option String := none
  publishedAt : String
  collectedAt : String
  processedStatus : String := "pending"
  contentHash : String

/-- The `id || slug || symbol` candidate of `fetchEndpoint`'s source-id
derivation (before the `Math.random()` fallback). -/
def sourceIdCandidate (mapped : List (String × Option JsonValue)) :
    Option JsonValue :=
  jsOr (jsOr (mget mapped "id") (mget mapped "slug")) (mget mapped "symbol")

/-- Per-item `project_info` normalisation of `fetchEndpoint`.  `rand`
is the `Math.random()` draw used when no mapped id/slug/symbol is
truthy. -/
def normalizeRestProjectItem (sourceTag : String) (item : JsonValue)
    (mapping : List (String × MappingRule)) (now : String) (rand : ℚ) :
    Except String RestProjectInfo := do
  let mapped ← applyMapping item mapping
  let dataHash := generateContentHash (jsonStringify item)
  let sourceId := jsToString (jsOrV (sourceIdCandidate mapped) (.num rand))
  .ok
    { id := generateProjectInfoId sourceTag sourceId, source := sourceTag,
      sourceId := sourceId, rawData := item,
      name := jsToString (jsOrV (mget mapped "name") (.str sourceId)),
      logo := toStringOrUndefined (jsOr (mget mapped "image") (mget mapped "logo")),
      website := toStringOrUndefined (jsOr (mget mapped "url") (mget mapped "website")),
      description := toStringOrUndefined (mget mapped "description"),
      sourceCategory := toStringOrUndefined
        (jsOr (mget mapped "category") (mget mapped "sourceCategory")),
      twitter := toStringOrUndefined
        (jsOr (mget mapped "twitter") (mget mapped "twitter_handle")),
      tokenSymbol := toStringOrUndefined
        (jsOr (mget mapped "symbol") (mget mapped "tokenSymbol")),
      collectedAt := now, dataHash := dataHash }

/-- Per-item `market_info` normalisation of `fetchEndpoint` (the id is
the source tag plus the raw-payload content hash; no randomness). -/
def normalizeRestMarketItem (sourceTag : String) (item : JsonValue)
    (mapping : List (String × MappingRule)) (now : String) :
    Except String RestMarketInfo := do
  let mapped ← applyMapping item mapping
  let dataHash := generateContentHash (jsonStringify item)
  .ok
    { id := sourceTag ++ "-" ++ dataHash, source := sourceTag, rawData := item,
      title := jsToString (jsOrV (jsOr (mget mapped "title") (mget mapped "name")) (.str "")),
      content := jsToString
        (jsOrV (jsOr (mget mapped "content") (mget mapped "description")) (.str "")),
      url := toStringOrUndefined (mget mapped "url"),
      publishedAt := jsToString (jsOrV (mget mapped "publishedAt") (.str now)),
      collectedAt := now, contentHash := dataHash }

/-- A parsed RSS/Atom feed item. -/
structure FeedItem where
  title : String
  link : Option String := none
  description : String := ""
  pubDate : Option String := none
  author : Option String := none
  category : Option String := none
  deriving Repr, DecidableEq

/-- Drop the first occurrence of `pat` from `cs`. -/
def dropFirstOccurrence (pat : List Char) : List Char → List Char
  | [] => []
  | c :: rest =>
    if pat.isPrefixOf (c :: rest) then (c :: rest).drop pat.length
    else c :: dropFirstOccurrence pat rest

/-- JS `String.prototype.replace` with a string pattern and an empty
replacement: removes the first occurrence only. -/
def replaceFirst (s pattern : String) : String :=
  String.mk (dropFirstOccurrence pattern.toList s.toList)

/-- The `MarketInfo` the RSS collector builds from a feed item. -/
structure RssMarketInfo where
  id : String
  source : String
  rawItem : FeedItem
  title : String
  content : String
  publishedAt : String
  publishedDate : String
  collectedAt : String
  processedStatus : String := "pending"
  contentHash : String
  url : Option String := none
  author : Option String := none
  tags : Option (List String) := none
  deriving Repr, DecidableEq

/-- Per-item normalisation of `RssCollector.collect`: the content hash
is taken over `title + link` (JS string concatenation renders an absent
link as the text `undefined`), the id strips a leading `rss:` from the
source id, and an unparsable publish date falls back to the ingestion
time. -/
def rssItemToMarketInfo (sourceId : String) (item : FeedItem) (now : String) :
    RssMarketInfo :=
  let contentHash := generateContentHash
    (item.title ++ (match item.link with | some l => l | none => "undefined"))
  let id := replaceFirst sourceId "rss:" ++ "-" ++ contentHash
  let publishedAt :=
    match item.pubDate with
    | some d => if d = "" then now else (parseJsDate d).getD now
    | none => now
  { id := id, source := sourceId, rawItem := item, title := item.title,
    content := item.description, publishedAt := publishedAt,
    publishedDate := (publishedAt.splitOn "T").headD publishedAt,
    collectedAt := now, contentHash := contentHash,
    url := item.link.bind (fun l => if l = "" then none else some l),
    author := item.author.bind (fun a => if a = "" then none else some a),
    tags := item.category.bind (fun c => if c = "" then none else some [c]) }

/-! Concrete scripted models used to settle the loop claims. -/

/-- A scripted model whose first response (to the single-prompt
conversation) calls `report_analysis` with stop reason `tool_use`, and
whose later responses call `add_event` with stop reason `tool_use`. -/
def respondReportFirst (msgs : List Message) : BedrockResponse :=
  if msgs.length == 1 then
    ⟨[.toolUse ⟨"t1", "report_analysis",
      { sentiment := some "negative", reasoning := some "done" }⟩], "tool_use"⟩
  else
    ⟨[.toolUse ⟨"t2", "add_event", {}⟩], "tool_use"⟩

/-- A scripted model that answers every request with one `add_event`
tool call and stop reason `tool_use`, never `report_analysis`. -/
def respondOneToolEveryRound (_ : List Message) : BedrockResponse :=
  ⟨[.toolUse ⟨"t", "add_event", {}⟩], "tool_use"⟩

/-- A scripted model that answers with plain text and no tool calls. -/
def respondNoTools (_ : List Message) : BedrockResponse :=
  ⟨[.text "nothing to do"], "end_turn"⟩

/-- `shouldCollect` characterised as a proposition. -/
theorem shouldCollect_eq_true_iff (now : ℚ) (c : SourceConfig) :
    shouldCollect now c = true ↔
      c.enabled = true ∧
        (c.lastCollectedAt = none ∨
          ∃ t, c.lastCollectedAt = some t ∧ (now - t) / (1000 * 60) ≥ c.intervalMinutes) := by
  unfold shouldCollect
  cases henabled : c.enabled with
  | false => simp [henabled]
  | true =>
    cases hlast : c.lastCollectedAt with
    | none => simp [hlast]
    | some t => simp [hlast]

end CryptoDashboard

namespace CryptoDashboard

/-- C3: for every `(healthScore, riskFlags, opportunityFlags)` with the
score in `[0, 100]`, `determineProjectStatus` follows the ordered
precedence — critical risk ⇒ danger; else high risk or score < 30 ⇒
danger; else medium risk or score < 50 ⇒ warning; else high-importance
opportunity or score ≥ 80 ⇒ watch; else normal — and adding a
critical-severity risk flag to any input always yields danger. -/
theorem determineProjectStatus_precedence (score : Int)
    (h0 : 0 ≤ score) (h100 : score ≤ 100)
    (rf : List RiskFlag) (opf : List OpportunityFlag) :
    (determineProjectStatus score rf opf = .danger ↔
      (∃ f ∈ rf, f.severity = "critical") ∨ (∃ f ∈ rf, f.severity = "high") ∨ score < 30) ∧
    (determineProjectStatus score rf opf = .warning ↔
      ¬((∃ f ∈ rf, f.severity = "critical") ∨ (∃ f ∈ rf, f.severity = "high") ∨ score < 30) ∧
        ((∃ f ∈ rf, f.severity = "medium") ∨ score < 50)) ∧
    (determineProjectStatus score rf opf = .watch ↔
      ¬((∃ f ∈ rf, f.severity = "critical") ∨ (∃ f ∈ rf, f.severity = "high") ∨ score < 30) ∧
        ¬((∃ f ∈ rf, f.severity = "medium") ∨ score < 50) ∧
        ((∃ f ∈ opf, f.importance = "high") ∨ 80 ≤ score)) ∧
    (determineProjectStatus score rf opf = .normal ↔
      ¬((∃ f ∈ rf, f.severity = "critical") ∨ (∃ f ∈ rf, f.severity = "high") ∨ score < 30) ∧
        ¬((∃ f ∈ rf, f.severity = "medium") ∨ score < 50) ∧
        ¬((∃ f ∈ opf, f.importance = "high") ∨ 80 ≤ score)) ∧
    (∀ g : RiskFlag, g.severity = "critical" →
      determineProjectStatus score (g :: rf) opf = .danger) := by
  have hmono : ∀ g : RiskFlag, g.severity = "critical" →
      determineProjectStatus score (g :: rf) opf = .danger := by
    intro g hg
    unfold determineProjectStatus
    simp [List.any_cons, hg]
  refine ⟨?_, ?_, ?_, ?_, hmono⟩ <;>
  · unfold determineProjectStatus
    split_ifs with h1 h2 h3 <;> simp_all [List.any_eq_true]

/-- C3 witness: a concrete evaluation of the precedence theorem at score
70 with one medium risk flag. -/
theorem determineProjectStatus_precedence_witness :
    determineProjectStatus 70 [⟨"fund_issues", "medium", "d", "", none⟩] [] = .warning := by
  have h := determineProjectStatus_precedence 70 (by decide) (by decide)
    [⟨"fund_issues", "medium", "d", "", none⟩] []
  exact h.2.1.mpr (by simp)

/-- C5: a source is in the due set iff it is listed, enabled, and either
never collected or its interval has elapsed; and the due set is pairwise
ordered ascending by priority. -/
theorem dueSources_mem_and_sorted (now : ℚ) (sources : List SourceConfig) :
    (∀ c : SourceConfig,
      c ∈ dueSources now sources ↔
        c ∈ sources ∧ c.enabled = true ∧
          (c.lastCollectedAt = none ∨
            ∃ t, c.lastCollectedAt = some t ∧
              (now - t) / (1000 * 60) ≥ c.intervalMinutes)) ∧
    List.Pairwise priorityLE (dueSources now sources) := by
  constructor
  · intro c
    unfold dueSources
    rw [(List.perm_insertionSort _ _).mem_iff, List.mem_filter, List.mem_filter,
      shouldCollect_eq_true_iff]
    constructor
    · rintro ⟨⟨hmem, hen⟩, _, hdue⟩
      exact ⟨hmem, by simpa using hen, hdue⟩
    · rintro ⟨hmem, hen, hdue⟩
      exact ⟨⟨hmem, by simpa using hen⟩, hen, hdue⟩
  · exact List.sorted_insertionSort priorityLE _

/-! ### Tool-use loop lemmas -/

/-- One tool call never drops already queued operations. -/
theorem processToolCall_operations_mono (acc : LoopAcc) (t : ToolUseBlock) :
    acc.operations <+: (processToolCall acc t).operations := by
  unfold processToolCall
  split
  · exact List.prefix_refl _
  · split
    · exact List.prefix_append _ _
    · exact List.prefix_refl _

/-- One round never drops already queued operations. -/
theorem processRound_operations_mono (blocks : List ToolUseBlock)
    (ops : List EntityOperation) (analysis : Analysis) (reasoning : String) :
    ops <+: (processRound blocks ops analysis reasoning).operations := by
  unfold processRound
  generalize hacc : (⟨ops, analysis, reasoning, []⟩ : LoopAcc) = acc
  have hops : ops = acc.operations := by rw [← hacc]
  rw [hops]
  clear hacc hops
  induction blocks generalizing acc with
  | nil => exact List.prefix_refl _
  | cons t rest ih =>
    exact (processToolCall_operations_mono acc t).trans (ih _)

/-- The loop performs at most `fuel` further model invocations. -/
theorem toolLoop_rounds_le (respond : List Message → BedrockResponse)
    (fuel : Nat) :
    ∀ (msgs : List Message) (ops : List EntityOperation) (analysis : Analysis)
      (reasoning : String) (rounds : Nat),
      (toolLoop respond fuel msgs ops analysis reasoning rounds).2 ≤ rounds + fuel := by
  induction fuel with
  | zero => intro msgs ops analysis reasoning rounds; simp [toolLoop]
  | succ n ih =>
    intro msgs ops analysis reasoning rounds
    unfold toolLoop
    dsimp only
    split
    · simp
    · split
      · simp
      · exact le_trans (ih _ _ _ _ _) (by omega)

/-- Against a model that always emits at least one tool call and never
stops with `end_turn`, the loop expends all its fuel. -/
theorem toolLoop_rounds_eq (respond : List Message → BedrockResponse)
    (h : ∀ msgs, (toolUseBlocksOf (respond msgs)).isEmpty = false ∧
      (respond msgs).stop_reason ≠ "end_turn")
    (fuel : Nat) :
    ∀ (msgs : List Message) (ops : List EntityOperation) (analysis : Analysis)
      (reasoning : String) (rounds : Nat),
      (toolLoop respond fuel msgs ops analysis reasoning rounds).2 = rounds + fuel := by
  induction fuel with
  | zero => intro msgs ops analysis reasoning rounds; simp [toolLoop]
  | succ n ih =>
    intro msgs ops analysis reasoning rounds
    unfold toolLoop
    dsimp only
    rw [if_neg (by simp [(h msgs).1]), if_neg (by simp [(h msgs).2])]
    rw [ih]
    omega

/-- The loop never drops already queued operations. -/
theorem toolLoop_operations_mono (respond : List Message → BedrockResponse)
    (fuel : Nat) :
    ∀ (msgs : List Message) (ops : List EntityOperation) (analysis : Analysis)
      (reasoning : String) (rounds : Nat),
      ops <+: (toolLoop respond fuel msgs ops analysis reasoning rounds).1.operations := by
  induction fuel with
  | zero => intro msgs ops analysis reasoning rounds; simp [toolLoop]
  | succ n ih =>
    intro msgs ops analysis reasoning rounds
    unfold toolLoop
    dsimp only
    split
    · exact List.prefix_refl _
    · split
      · exact processRound_operations_mono _ _ _ _
      · exact (processRound_operations_mono _ ops analysis reasoning).trans (ih _ _ _ _ _)

/-- C2: the resolution loop performs at most 5 rounds for every model
behaviour; a first response with zero tool calls ends it after exactly
one round with nothing accumulated; a model that always returns a tool
call and never `end_turn` drives it to exactly 5 rounds; and operations
accumulated at any loop state are returned, never discarded. -/
theorem analyzeWithTools_bounded (respond : List Message → BedrockResponse)
    (prompt : String) :
    (analyzeWithTools respond prompt).2 ≤ 5 ∧
    ((toolUseBlocksOf (respond (initialMessages prompt))).isEmpty = true →
      analyzeWithTools respond prompt =
        ({ operations := [], analysis := {}, reasoning := "" }, 1)) ∧
    ((∀ msgs, (toolUseBlocksOf (respond msgs)).isEmpty = false ∧
        (respond msgs).stop_reason ≠ "end_turn") →
      (analyzeWithTools respond prompt).2 = 5) ∧
    (∀ fuel msgs ops analysis reasoning rounds,
      ops <+: (toolLoop respond fuel msgs ops analysis reasoning rounds).1.operations) := by
  refine ⟨?_, ?_, ?_, ?_⟩
  · exact toolLoop_rounds_le respond 5 _ _ _ _ _
  · intro hempty
    unfold analyzeWithTools toolLoop
    dsimp only
    rw [if_pos hempty]
  · intro h
    exact toolLoop_rounds_eq respond h 5 _ _ _ _ _
  · intro fuel msgs ops analysis reasoning rounds
    exact toolLoop_operations_mono respond fuel msgs ops analysis reasoning rounds

/-- C2 witness: against the scripted always-tool-calling model the loop
runs exactly 5 rounds, and a no-tool first response ends it at round 1. -/
theorem analyzeWithTools_bounded_witness :
    (analyzeWithTools respondOneToolEveryRound "p").2 = 5 ∧
    analyzeWithTools respondNoTools "p" =
      ({ operations := [], analysis := {}, reasoning := "" }, 1) := by
  constructor
  · exact (analyzeWithTools_bounded respondOneToolEveryRound "p").2.2.1
      (fun msgs => ⟨rfl, fun hcon => by simp [respondOneToolEveryRound] at hcon⟩)
  · exact (analyzeWithTools_bounded respondNoTools "p").2.1 rfl

/-- C1 counterexample: the first response contains a `report_analysis`
tool call, yet the loop performs all 5 model rounds — observing
`report_analysis` does not end the loop. -/
theorem analyzeWithTools_report_not_terminal :
    (∃ t ∈ toolUseBlocksOf (respondReportFirst (initialMessages "p")),
      t.name = "report_analysis") ∧
    (analyzeWithTools respondReportFirst "p").2 = 5 := by
  constructor
  · refine ⟨⟨"t1", "report_analysis",
      { sentiment := some "negative", reasoning := some "done" }⟩, ?_, rfl⟩
    simp [respondReportFirst, initialMessages, toolUseBlocksOf]
  · rfl

/-- C1 amended: the loop's only early exits are a round with zero tool
calls and a response whose stop reason is `end_turn`; a round with tool
calls and any other stop reason always recurses, regardless of whether
`report_analysis` was among the calls; `report_analysis` itself only
records `{sentiment, eventType, identifiedProjects, keyInsights}` and
the reasoning into the accumulators that the loop finally returns. -/
theorem toolLoop_exit_characterisation (respond : List Message → BedrockResponse) :
    (∀ fuel msgs ops analysis reasoning rounds,
      (toolUseBlocksOf (respond msgs)).isEmpty = true →
        toolLoop respond (fuel + 1) msgs ops analysis reasoning rounds =
          ({ operations := ops, analysis := analysis, reasoning := reasoning },
            rounds + 1)) ∧
    (∀ fuel msgs ops analysis reasoning rounds,
      (toolUseBlocksOf (respond msgs)).isEmpty = false →
      (respond msgs).stop_reason = "end_turn" →
        toolLoop respond (fuel + 1) msgs ops analysis reasoning rounds =
          (⟨(processRound (toolUseBlocksOf (respond msgs)) ops analysis reasoning).operations,
            (processRound (toolUseBlocksOf (respond msgs)) ops analysis reasoning).analysis,
            (processRound (toolUseBlocksOf (respond msgs)) ops analysis reasoning).reasoning⟩,
            rounds + 1)) ∧
    (∀ fuel msgs ops analysis reasoning rounds,
      (toolUseBlocksOf (respond msgs)).isEmpty = false →
      (respond msgs).stop_reason ≠ "end_turn" →
        toolLoop respond (fuel + 1) msgs ops analysis reasoning rounds =
          toolLoop respond fuel
            (msgs ++ [⟨"assistant", .assistant (respond msgs).content⟩,
              ⟨"user", .toolResults
                (processRound (toolUseBlocksOf (respond msgs)) ops analysis reasoning).results⟩])
            (processRound (toolUseBlocksOf (respond msgs)) ops analysis reasoning).operations
            (processRound (toolUseBlocksOf (respond msgs)) ops analysis reasoning).analysis
            (processRound (toolUseBlocksOf (respond msgs)) ops analysis reasoning).reasoning
            (rounds + 1)) ∧
    (∀ acc t, t.name = "report_analysis" →
      (processToolCall acc t).analysis =
        { sentiment := t.input.sentiment, eventType := t.input.eventType,
          identifiedProjects := t.input.identifiedProjects,
          keyInsights := t.input.keyInsights } ∧
      (processToolCall acc t).reasoning = t.input.reasoning.getD "" ∧
      (processToolCall acc t).operations = acc.operations) := by
  refine ⟨?_, ?_, ?_, ?_⟩
  · intro fuel msgs ops analysis reasoning rounds hempty
    unfold toolLoop
    dsimp only
    rw [if_pos hempty]
  · intro fuel msgs ops analysis reasoning rounds hne hstop
    unfold toolLoop
    dsimp only
    rw [if_neg (by simp [hne]), if_pos hstop]
  · intro fuel msgs ops analysis reasoning rounds hne hstop
    conv_lhs => rw [toolLoop]
    dsimp only
    rw [if_neg (by simp [hne]), if_neg hstop]
  · intro acc t ht
    unfold processToolCall
    rw [if_pos ht]
    exact ⟨rfl, rfl, rfl⟩

/-- C1 amended witness: concrete evaluations of the exit
characterisation — a no-tool response ends the loop at once, and a
`report_analysis` call records the negative sentiment it reported. -/
theorem toolLoop_exit_characterisation_witness :
    toolLoop respondNoTools 5 (initialMessages "p") [] {} "" 0 =
      ({ operations := [], analysis := {}, reasoning := "" }, 1) ∧
    (processToolCall ⟨[], {}, "", []⟩
      ⟨"t1", "report_analysis",
        { sentiment := some "negative", reasoning := some "done" }⟩).analysis =
      { sentiment := some "negative", eventType := none,
        identifiedProjects := none, keyInsights := none } := by
  constructor
  · exact (toolLoop_exit_characterisation respondNoTools).1 4 _ [] {} "" 0 rfl
  · exact ((toolLoop_exit_characterisation respondNoTools).2.2.2
      ⟨[], {}, "", []⟩ _ rfl).1

/-- The source's four sequential event-type additions sum to the spec's
event-type bonus (the event type matches at most one literal). -/
theorem eventIfs_eq_bonus (et : Option String) :
    (if et = some "security" then (30 : Int) else 0)
      + (if et = some "funding" then 20 else 0)
      + (if et = some "regulatory" then 25 else 0)
      + (if et = some "legal" then 20 else 0) = eventTypeBonus et := by
  unfold eventTypeBonus
  by_cases h1 : et = some "security" <;> by_cases h2 : et = some "funding" <;>
    by_cases h3 : et = some "regulatory" <;> by_cases h4 : et = some "legal" <;>
    simp_all

/-- The source's two sequential sentiment additions sum to the spec's
sentiment bonus. -/
theorem sentimentIfs_eq_bonus (s : Option String) :
    (if s = some "negative" then (15 : Int) else 0)
      + (if s = some "positive" then 5 else 0) = sentimentBonus s := by
  unfold sentimentBonus
  by_cases h1 : s = some "negative" <;> by_cases h2 : s = some "positive" <;> simp_all

/-- C6: the importance score the agent records equals the spec's fixed
weighted rule — base 50, event-type bonus (+30 security, +25 regulatory,
+20 funding, +20 legal), sentiment bonus (+15 negative, +5 positive),
+5 per identified project capped at 15, +5 per risk-or-opportunity
operation, clamped to `[0, 100]`. -/
theorem calculateImportanceScore_eq_spec (output : AIAgentOutput) :
    calculateImportanceScore output = importanceScoreSpec output := by
  unfold calculateImportanceScore importanceScoreSpec
  rw [← eventIfs_eq_bonus, ← sentimentIfs_eq_bonus]
  dsimp only
  have hclamp : ∀ x y : Int, x = y → min (max x 0) 100 = min (max y 0) 100 := by
    intro x y hxy; rw [hxy]
  apply hclamp
  ring

/-! ### Ingestion idempotence -/

/-- A put is visible to the next get on the same key. -/
theorem dbGet_dbPut_self {α : Type} (table : List (String × α)) (k : String) (v : α) :
    dbGet (dbPut table k v) k = some v := by
  simp [dbGet, dbPut]

/-- C4: an incoming `ProjectInfo` whose stored record carries the same
`dataHash` is skipped with the state untouched and no queue message; an
absent or hash-differing record is written and exactly one
`{project_info, id}` message is enqueued; after processing an item the
store holds a record under its id with its hash, and processing the
same item again leaves the state (store and queue) unchanged. -/
theorem projectInfo_ingestion_idempotent (st : IngestState) (info : ProjectInfoRec) :
    (∀ stored, dbGet st.table info.id = some stored →
      stored.dataHash = info.dataHash → processProjectItem st info = (st, false)) ∧
    ((∀ stored, dbGet st.table info.id = some stored →
        stored.dataHash ≠ info.dataHash) →
      processProjectItem st info =
        ({ table := dbPut st.table info.id info,
           queue := st.queue ++ [⟨"project_info", info.id⟩] }, true)) ∧
    (∃ stored, dbGet (processProjectItem st info).1.table info.id = some stored ∧
      stored.dataHash = info.dataHash) ∧
    (processProjectItem (processProjectItem st info).1 info =
      ((processProjectItem st info).1, false)) := by
  have hdup_iff : ∀ t, isDuplicateProjectInfo t info = true ↔
      ∃ stored, dbGet t info.id = some stored ∧ stored.dataHash = info.dataHash := by
    intro t
    unfold isDuplicateProjectInfo
    cases hget : dbGet t info.id with
    | none => simp
    | some stored => simp
  refine ⟨?_, ?_, ?_, ?_⟩
  · intro stored hget hhash
    unfold processProjectItem saveProjectInfo
    rw [if_pos ((hdup_iff st.table).mpr ⟨stored, hget, hhash⟩)]
    rfl
  · intro hdiff
    have hnodup : isDuplicateProjectInfo st.table info = false := by
      rw [Bool.eq_false_iff]
      intro hcon
      obtain ⟨stored, hget, hhash⟩ := (hdup_iff st.table).mp hcon
      exact hdiff stored hget hhash
    unfold processProjectItem saveProjectInfo
    rw [hnodup]
    simp
  · by_cases hdup : isDuplicateProjectInfo st.table info = true
    · obtain ⟨stored, hget, hhash⟩ := (hdup_iff st.table).mp hdup
      refine ⟨stored, ?_, hhash⟩
      unfold processProjectItem saveProjectInfo
      rw [if_pos hdup]
      exact hget
    · refine ⟨info, ?_, rfl⟩
      unfold processProjectItem saveProjectInfo
      rw [if_neg hdup]
      simpa using dbGet_dbPut_self st.table info.id info
  · have hsecond : ∀ st' : IngestState,
        (∃ stored, dbGet st'.table info.id = some stored ∧
          stored.dataHash = info.dataHash) →
        processProjectItem st' info = (st', false) := by
      intro st' hex
      unfold processProjectItem saveProjectInfo
      rw [if_pos ((hdup_iff st'.table).mpr hex)]
      rfl
    apply hsecond
    by_cases hdup : isDuplicateProjectInfo st.table info = true
    · obtain ⟨stored, hget, hhash⟩ := (hdup_iff st.table).mp hdup
      refine ⟨stored, ?_, hhash⟩
      unfold processProjectItem saveProjectInfo
      rw [if_pos hdup]
      exact hget
    · refine ⟨info, ?_, rfl⟩
      unfold processProjectItem saveProjectInfo
      rw [if_neg hdup]
      simpa using dbGet_dbPut_self st.table info.id info

/-- C4 witness: a fresh item is saved and enqueued once; processing the
same item again leaves the state unchanged and sends nothing. -/
theorem projectInfo_ingestion_idempotent_witness :
    processProjectItem ⟨[], []⟩ ⟨"cg:bitcoin", "h1", ""⟩ =
      ({ table := [("cg:bitcoin", ⟨"cg:bitcoin", "h1", ""⟩)],
         queue := [⟨"project_info", "cg:bitcoin"⟩] }, true) ∧
    processProjectItem (processProjectItem ⟨[], []⟩ ⟨"cg:bitcoin", "h1", ""⟩).1
        ⟨"cg:bitcoin", "h1", ""⟩ =
      ((processProjectItem ⟨[], []⟩ ⟨"cg:bitcoin", "h1", ""⟩).1, false) := by
  constructor
  · have h := (projectInfo_ingestion_idempotent ⟨[], []⟩ ⟨"cg:bitcoin", "h1", ""⟩).2.1
      (by intro stored hget; simp [dbGet] at hget)
    simpa [dbPut] using h
  · exact (projectInfo_ingestion_idempotent ⟨[], []⟩ ⟨"cg:bitcoin", "h1", ""⟩).2.2.2

/-! ### Entity mutation engine: health-score range -/

/-- A successful get witnesses membership. -/
theorem dbGet_mem {α : Type} {table : List (String × α)} {k : String} {v : α}
    (h : dbGet table k = some v) : (k, v) ∈ table := by
  unfold dbGet at h
  cases hf : table.find? (fun p => p.1 == k) with
  | none => rw [hf] at h; cases h
  | some p =>
    rw [hf] at h
    have hmem := List.mem_of_find?_eq_some hf
    have hpred := List.find?_some hf
    obtain ⟨k', v'⟩ := p
    simp only [Option.map_some', Option.some.injEq] at h
    simp only [beq_iff_eq] at hpred
    rw [← h, ← hpred]
    exact hmem

/-- A member of an overwritten table is the new entry or an old one. -/
theorem mem_dbPut_elim {α : Type} {table : List (String × α)} {k : String} {v : α}
    {entry : String × α} (h : entry ∈ dbPut table k v) :
    entry = (k, v) ∨ entry ∈ table := by
  unfold dbPut at h
  rcases List.mem_cons.mp h with h | h
  · exact Or.inl h
  · exact Or.inr (List.mem_of_mem_filter h)

/-- Overwriting with an in-range project preserves the range
invariant. -/
theorem storeHealthInRange_dbPut {store : List (String × Project)} {k : String}
    {p : Project} (hrange : storeHealthInRange store)
    (hp : 0 ≤ p.healthScore ∧ p.healthScore ≤ 100) :
    storeHealthInRange (dbPut store k p) := by
  intro entry hmem
  rcases mem_dbPut_elim hmem with rfl | hmem
  · exact hp
  · exact hrange entry hmem

/-- The merge writes exactly the supplied health score, or keeps the
stored one. -/
theorem applyUpdate_healthScore (p : Project) (u : ProjectPartial) (now : String) :
    (applyUpdate p u now).healthScore = u.healthScore.getD p.healthScore := rfl

/-- C8 counterexample: an `update` operation carrying `healthScore 150`
stores 150 — the engine performs no clamping, so the range invariant is
broken by a single operation even though it held before. -/
theorem executeOperation_update_stores_out_of_range :
    storeHealthInRange [("acme", { id := "acme" })] ∧
    ¬ storeHealthInRange
      (executeOperation [("acme", { id := "acme" })] "t0" "evt-1"
        (.update "acme" { healthScore := some 150 } "hype")).1 ∧
    (dbGet (executeOperation [("acme", { id := "acme" })] "t0" "evt-1"
        (.update "acme" { healthScore := some 150 } "hype")).1 "acme").map
      Project.healthScore = some 150 := by
  refine ⟨by decide, by decide, ?_⟩
  rfl

/-- C8 amended: a newly created entity always has health score 70; and
the range invariant `healthScore ∈ [0, 100]` is preserved by every
operation sequence in which each `update` carries an in-range (or no)
health score — the engine itself never clamps, so the tool schema's
declared bound is the only guard. -/
theorem executeOperations_health_invariant (now freshEventId : String) :
    (∀ (store : List (String × Project)) (entity : CreateEntity),
      dbGet store entity.id = none →
      (dbGet (executeOperation store now freshEventId (.create entity)).1
          entity.id).map Project.healthScore = some 70) ∧
    (∀ store op, storeHealthInRange store → opHealthScoreOK op →
      storeHealthInRange (executeOperation store now freshEventId op).1) ∧
    (∀ store ops, storeHealthInRange store → (∀ op ∈ ops, opHealthScoreOK op) →
      storeHealthInRange (executeOperations store now freshEventId ops)) := by
  have hstep : ∀ store op, storeHealthInRange store → opHealthScoreOK op →
      storeHealthInRange (executeOperation store now freshEventId op).1 := by
    intro store op hrange hop
    match op with
    | .create entity =>
      cases hget : dbGet store entity.id with
      | some existing =>
        unfold executeOperation
        dsimp only
        rw [hget]
        dsimp only
        refine storeHealthInRange_dbPut hrange ?_
        rw [applyUpdate_healthScore]
        exact hrange (entity.id, existing) (dbGet_mem hget)
      | none =>
        unfold executeOperation
        dsimp only
        rw [hget]
        dsimp only
        refine storeHealthInRange_dbPut hrange ?_
        constructor <;> norm_num
    | .update entityId updates _reason =>
      cases hget : dbGet store entityId with
      | none =>
        unfold executeOperation
        dsimp only
        rw [hget]
        exact hrange
      | some existing =>
        unfold executeOperation
        dsimp only
        rw [hget]
        dsimp only
        refine storeHealthInRange_dbPut hrange ?_
        rw [applyUpdate_healthScore]
        cases hh : updates.healthScore with
        | none =>
          exact hrange (entityId, existing) (dbGet_mem hget)
        | some h => exact hop h hh
    | .add_event entityId event =>
      cases hget : dbGet store entityId with
      | none =>
        unfold executeOperation
        dsimp only
        rw [hget]
        exact hrange
      | some existing =>
        unfold executeOperation
        dsimp only
        rw [hget]
        dsimp only
        refine storeHealthInRange_dbPut hrange ?_
        rw [applyUpdate_healthScore]
        exact hrange (entityId, existing) (dbGet_mem hget)
    | .add_risk_flag entityId flag =>
      cases hget : dbGet store entityId with
      | none =>
        unfold executeOperation
        dsimp only
        rw [hget]
        exact hrange
      | some existing =>
        unfold executeOperation
        dsimp only
        rw [hget]
        dsimp only
        split
        · exact hrange
        · refine storeHealthInRange_dbPut hrange ?_
          rw [applyUpdate_healthScore]
          exact hrange (entityId, existing) (dbGet_mem hget)
    | .add_opportunity_flag entityId flag =>
      cases hget : dbGet store entityId with
      | none =>
        unfold executeOperation
        dsimp only
        rw [hget]
        exact hrange
      | some existing =>
        unfold executeOperation
        dsimp only
        rw [hget]
        dsimp only
        split
        · exact hrange
        · refine storeHealthInRange_dbPut hrange ?_
          rw [applyUpdate_healthScore]
          exact hrange (entityId, existing) (dbGet_mem hget)
  refine ⟨?_, hstep, ?_⟩
  · intro store entity hget
    unfold executeOperation
    dsimp only
    rw [hget]
    dsimp only
    rw [dbGet_dbPut_self]
    rfl
  · intro store ops
    induction ops generalizing store with
    | nil => intro hrange _; exact hrange
    | cons op rest ih =>
      intro hrange hops
      exact ih _ (hstep store op hrange (hops op (List.mem_cons_self op rest)))
        fun op' hop' => hops op' (List.mem_cons_of_mem _ hop')

/-- C8 amended witness: creating `acme` then updating it with an
in-range score keeps every stored health score in `[0, 100]`, and the
fresh creation starts at 70. -/
theorem executeOperations_health_invariant_witness :
    (dbGet (executeOperation [] "t0" "evt-1"
        (.create { id := "acme", name := "Acme", category := "defi" })).1
      "acme").map Project.healthScore = some 70 ∧
    storeHealthInRange (executeOperations [] "t0" "evt-1"
      [.create { id := "acme", name := "Acme", category := "defi" },
       .update "acme" { healthScore := some 55 } "steady"]) := by
  constructor
  · exact (executeOperations_health_invariant "t0" "evt-1").1 []
      { id := "acme", name := "Acme", category := "defi" } rfl
  · refine (executeOperations_health_invariant "t0" "evt-1").2.2 [] _ (by decide) ?_
    intro op hop
    simp only [List.mem_cons, List.not_mem_nil, or_false] at hop
    rcases hop with rfl | rfl
    · trivial
    · intro h hh
      simp only [Option.some.injEq] at hh
      omega

/-! ### Field mapping: lenient parsing (C7) -/

/-- Every transform except `date` is total. -/
theorem transformValue_ok (v : JsonValue) (t : Transform) (ht : t ≠ Transform.date) :
    ∃ w, transformValue v t = .ok w := by
  match t with
  | .string => exact ⟨_, rfl⟩
  | .number =>
    unfold transformValue
    cases jsToNumber v with
    | none => exact ⟨_, rfl⟩
    | some q => exact ⟨_, rfl⟩
  | .date => exact absurd rfl ht
  | .array =>
    unfold transformValue
    cases v with
    | arr items => exact ⟨_, rfl⟩
    | str s => exact ⟨_, rfl⟩
    | num q => exact ⟨_, rfl⟩
    | nanv => exact ⟨_, rfl⟩
    | bool b => exact ⟨_, rfl⟩
    | null => exact ⟨_, rfl⟩
    | obj fields => exact ⟨_, rfl⟩
  | .lowercase => exact ⟨_, rfl⟩
  | .uppercase => exact ⟨_, rfl⟩

/-- A rule whose transform is not `date` never throws. -/
theorem applyRule_ok (data : JsonValue) (rule : MappingRule)
    (hrule : ∀ src dflt tr, rule = .complex src dflt tr → tr ≠ some Transform.date) :
    ∃ v, applyRule data rule = .ok v := by
  match rule with
  | .simple path => exact ⟨_, rfl⟩
  | .complex src dflt tr =>
    unfold applyRule
    dsimp only
    cases hv : getNestedValue data src with
    | some v =>
      cases tr with
      | none => exact ⟨_, by cases dflt <;> rfl⟩
      | some t =>
        obtain ⟨w, hw⟩ := transformValue_ok v t
          (fun hdate => hrule src dflt (some t) rfl (by rw [hdate]))
        exact ⟨some w, by cases dflt <;> simp [Except.map, hw]⟩
    | none =>
      cases dflt with
      | none => exact ⟨none, by cases tr <;> rfl⟩
      | some d =>
        cases tr with
        | none => exact ⟨_, rfl⟩
        | some t =>
          obtain ⟨w, hw⟩ := transformValue_ok d t
            (fun hdate => hrule src (some d) (some t) rfl (by rw [hdate]))
          exact ⟨some w, by simp [Except.map, hw]⟩

/-- C7 counterexample: a `date` transform applied to a present but
unparsable value makes `applyMapping` raise the `toISOString` RangeError
instead of propagating absence. -/
theorem applyMapping_date_transform_throws :
    applyMapping (.obj [("a", .str "garbage")])
      [("f", .complex "a" none (some .date))] = .error "Invalid time value" := rfl

/-- C7 amended: `applyMapping` raises no exception on any record as
long as no rule uses the `date` transform (every other transform is
total); a missing dot-path yields `undefined`, which the rule's default
replaces when present; a transform runs only when a value is present
after default substitution; and absence simply propagates as an unset
field. The `date` transform alone throws, when the (present) value does
not parse as a date. -/
theorem applyMapping_lenient (data : JsonValue) :
    (∀ mapping : List (String × MappingRule),
      (∀ entry ∈ mapping, ∀ src dflt tr,
        entry.2 = MappingRule.complex src dflt tr → tr ≠ some Transform.date) →
      ∃ result, applyMapping data mapping = .ok result) ∧
    (∀ path, applyRule data (.simple path) = .ok (getNestedValue data path)) ∧
    (∀ src tr, getNestedValue data src = none →
      applyRule data (.complex src none tr) = .ok none) ∧
    (∀ src d tr, getNestedValue data src = none →
      applyRule data (.complex src (some d) tr) =
        (match tr with
         | some t => (transformValue d t).map some
         | none => .ok (some d))) ∧
    (∀ src dflt v, getNestedValue data src = some v →
      applyRule data (.complex src dflt none) = .ok (some v)) ∧
    (∀ v t, t ≠ Transform.date → ∃ w, transformValue v t = .ok w) := by
  refine ⟨?_, fun path => rfl, ?_, ?_, ?_, transformValue_ok⟩
  · intro mapping
    induction mapping with
    | nil => intro _; exact ⟨[], rfl⟩
    | cons entry rest ih =>
      intro h
      obtain ⟨v, hv⟩ := applyRule_ok data entry.2
        (fun src dflt tr heq => h entry (List.mem_cons_self entry rest) src dflt tr heq)
      obtain ⟨restResult, hrest⟩ := ih
        (fun e he src dflt tr heq => h e (List.mem_cons_of_mem _ he) src dflt tr heq)
      refine ⟨(entry.1, v) :: restResult, ?_⟩
      unfold applyMapping
      rw [hv, hrest]
      rfl
  · intro src tr hv
    unfold applyRule
    dsimp only
    rw [hv]
  · intro src d tr hv
    unfold applyRule
    dsimp only
    rw [hv]
    cases tr <;> rfl
  · intro src dflt v hv
    unfold applyRule
    dsimp only
    rw [hv]

/-- C7 amended witness: a mapping without `date` transforms succeeds on
concrete data, and a missing path propagates as an unset field. -/
theorem applyMapping_lenient_witness :
    (∃ result,
      applyMapping (.obj [("profile", .obj [("name", .str "Acme")])])
        [("name", .simple "profile.name"),
         ("sym", .complex "sym" (some (.str "unk")) (some .uppercase))] = .ok result) ∧
    applyRule (.obj []) (.simple "missing.path") = .ok none := by
  constructor
  · refine (applyMapping_lenient _).1 _ ?_
    intro entry hmem src dflt tr heq
    simp only [List.mem_cons, List.not_mem_nil, or_false] at hmem
    rcases hmem with rfl | rfl
    · exact absurd heq (by intro hcon; cases hcon)
    · cases heq
      intro hcon
      cases hcon
  · simpa using (applyMapping_lenient (.obj [])).2.1 "missing.path"

/-! ### Identity derivation (C9) -/

/-- C9 counterexample: a REST item whose mapped data has no truthy
`id`/`slug`/`symbol` takes its source id from the `Math.random()` draw,
so two runs over the same input yield different record ids. -/
theorem restNormalize_identity_random :
    (normalizeRestProjectItem "coingecko" (.obj []) [] "t0" (mkRat 1 4)).toOption.map
       RestProjectInfo.id = some "coingecko:1/4" ∧
    (normalizeRestProjectItem "coingecko" (.obj []) [] "t0" (mkRat 1 2)).toOption.map
       RestProjectInfo.id = some "coingecko:1/2" ∧
    ("coingecko:1/4" : String) ≠ "coingecko:1/2" := by
  refine ⟨rfl, rfl, by decide⟩

/-- C9 amended: record identity is deterministic except for the
`Math.random()` fallback — a REST `ProjectInfo` id does not depend on
the random draw whenever the mapped data has a truthy
`id`/`slug`/`symbol`; a REST `MarketInfo` id is the source tag plus the
content hash of the whole raw payload; an RSS `MarketInfo` id is the
stripped source id plus the content hash of `title + link`, hence equal
across items agreeing on title and link, independent of collection
time. -/
theorem normalization_identity_deterministic :
    (∀ (sourceTag : String) (item : JsonValue)
        (mapping : List (String × MappingRule)) (now : String) (r1 r2 : ℚ),
      (∃ mapped, applyMapping item mapping = .ok mapped ∧
        ∃ v, sourceIdCandidate mapped = some v ∧ truthy v = true) →
      (normalizeRestProjectItem sourceTag item mapping now r1).toOption.map
          RestProjectInfo.id =
        (normalizeRestProjectItem sourceTag item mapping now r2).toOption.map
          RestProjectInfo.id) ∧
    (∀ (sourceTag : String) (item : JsonValue)
        (mapping : List (String × MappingRule)) (now : String) mapped,
      applyMapping item mapping = .ok mapped →
      (normalizeRestMarketItem sourceTag item mapping now).toOption.map
          RestMarketInfo.id =
        some (sourceTag ++ "-" ++ generateContentHash (jsonStringify item))) ∧
    (∀ (sourceId : String) (item : FeedItem) (now : String),
      (rssItemToMarketInfo sourceId item now).id =
        replaceFirst sourceId "rss:" ++ "-" ++ generateContentHash
          (item.title ++ (match item.link with | some l => l | none => "undefined"))) ∧
    (∀ (sourceId : String) (item item' : FeedItem) (now now' : String),
      item.title = item'.title → item.link = item'.link →
      (rssItemToMarketInfo sourceId item now).id =
        (rssItemToMarketInfo sourceId item' now').id) := by
  have hrss : ∀ (sourceId : String) (item : FeedItem) (now : String),
      (rssItemToMarketInfo sourceId item now).id =
        replaceFirst sourceId "rss:" ++ "-" ++ generateContentHash
          (item.title ++ (match item.link with | some l => l | none => "undefined")) := by
    intro sourceId item now
    rfl
  refine ⟨?_, ?_, hrss, ?_⟩
  · intro sourceTag item mapping now r1 r2 ⟨mapped, hmapped, v, hcand, htruthy⟩
    have hid : ∀ r : ℚ,
        (normalizeRestProjectItem sourceTag item mapping now r).toOption.map
            RestProjectInfo.id =
          some (generateProjectInfoId sourceTag
            (jsToString (jsOrV (sourceIdCandidate mapped) (.num r)))) := by
      intro r
      unfold normalizeRestProjectItem
      rw [hmapped]
      rfl
    rw [hid r1, hid r2]
    unfold jsOrV
    rw [hcand]
    dsimp only
    rw [htruthy]
    rfl
  · intro sourceTag item mapping now mapped hmapped
    unfold normalizeRestMarketItem
    rw [hmapped]
    rfl
  · intro sourceId item item' now now' htitle hlink
    rw [hrss, hrss, htitle, hlink]

/-- C9 amended witness: with a truthy mapped id the REST project id is
independent of the random draw. -/
theorem normalization_identity_deterministic_witness :
    (normalizeRestProjectItem "coingecko" (.obj [("id", .str "bitcoin")])
        [("id", .simple "id")] "t0" (mkRat 1 4)).toOption.map RestProjectInfo.id =
      (normalizeRestProjectItem "coingecko" (.obj [("id", .str "bitcoin")])
        [("id", .simple "id")] "t0" (mkRat 1 2)).toOption.map RestProjectInfo.id :=
  normalization_identity_deterministic.1 "coingecko" _ _ "t0" (mkRat 1 4) (mkRat 1 2)
    ⟨[("id", some (.str "bitcoin"))], rfl, .str "bitcoin", rfl, rfl⟩

/-! ### REST collector failure policy -/

/-- C10: when every endpoint fetch fails, the REST collector still
returns `success: true` with an empty item list and all-zero stats, so
the run is recorded as a success — the success counter is incremented
and the failure counter is not; `restCollect` never returns a failed
result, and only an exception outside the per-endpoint loop (the outer
catch) yields `success: false`. -/
theorem restCollect_failure_policy
    (fetchOutcomes : List (Except String (List ProjectInfoRec)))
    (hall : ∀ r ∈ fetchOutcomes, ∃ e, r = Except.error e)
    (stats : CollectionStats) :
    restCollect fetchOutcomes = successResult [] ⟨0, 0, 0⟩ ∧
    (collectFromSourceStatus (restCollect fetchOutcomes) 0 stats).successCount =
      stats.successCount + 1 ∧
    (collectFromSourceStatus (restCollect fetchOutcomes) 0 stats).failedCount =
      stats.failedCount ∧
    (∀ outcomes : List (Except String (List ProjectInfoRec)),
      (restCollect outcomes).success = true) ∧
    (∀ e, restCollectTop (α := ProjectInfoRec) (Except.error e) = failedResult e) := by
  have hnilAll : ∀ l : List (Except String (List ProjectInfoRec)),
      (∀ r ∈ l, ∃ e, r = Except.error e) →
      l.foldl concatFetched [] = [] := by
    intro l
    induction l with
    | nil => intro _; rfl
    | cons r rest ih =>
      intro h
      obtain ⟨e, rfl⟩ := h r (List.mem_cons_self r rest)
      exact ih fun r' hr' => h r' (List.mem_cons_of_mem _ hr')
  have hnil := hnilAll fetchOutcomes hall
  have hcollect : restCollect fetchOutcomes = successResult [] ⟨0, 0, 0⟩ := by
    unfold restCollect
    rw [hnil]
    rfl
  refine ⟨hcollect, ?_, ?_, ?_, ?_⟩
  · rw [hcollect]
    rfl
  · rw [hcollect]
    rfl
  · intro outcomes
    rfl
  · intro e
    rfl

/-- C10 witness: two failing endpoints still produce a successful empty
result whose bookkeeping bumps only the success counter. -/
theorem restCollect_failure_policy_witness :
    restCollect [Except.error "HTTP 500", Except.error "HTTP 404"] =
      successResult ([] : List ProjectInfoRec) ⟨0, 0, 0⟩ ∧
    (collectFromSourceStatus
      (restCollect [(Except.error "HTTP 500" : Except String (List ProjectInfoRec)),
        Except.error "HTTP 404"]) 0 ⟨7, 3, 2, 5⟩).successCount = 4 := by
  have h := restCollect_failure_policy
    [Except.error "HTTP 500", Except.error "HTTP 404"]
    (by
      intro r hr
      simp only [List.mem_cons, List.mem_singleton] at hr
      rcases hr with rfl | hr
      · exact ⟨"HTTP 500", rfl⟩
      · rcases hr with rfl | hfalse
        · exact ⟨"HTTP 404", rfl⟩
        · cases hfalse)
    ⟨7, 3, 2, 5⟩
  exact ⟨h.1, h.2.1⟩

end CryptoDashboard
